import Mathlib

/-!
Verification of `jn_utils_segmentation.py` (EdgeNets evaluation script).

The Python source is shallowly embedded below:
* `relabel` — the cityscapes train-ID → label-ID remapping (lines 18-45),
  embedded as a sequence of whole-array masked substitutions, exactly in the
  order the source applies them.  numpy's `img[img == v] = w` mutates the
  argument array in place and the function returns the same buffer, so the
  call is additionally embedded as an explicit state transformer
  (`relabelCall`) returning both the returned array and the post-call
  contents of the argument buffer.
* output-path construction from `evaluate` (lines 92-94), with Python's
  `str.split` and `str.replace` (replace-all-occurrences) semantics.
* `load_dataset` (lines 98-125) over an abstract filesystem.
* nearest-neighbour resize (PIL is external; modelled from the spec).
* `_freeze` / `_count_freeze` / `freeze_base` (lines 212-233) over a tree
  model of `torch.nn.Module`.
-/

/-- A 2D integer label array (numpy array of dtype uint8 in the source;
all values involved are below 256 so plain naturals suffice). -/
abbrev Grid := List (List Nat)

/-- `img[img == v] = w`: one numpy masked assignment, replacing every cell
equal to `v` by `w`. -/
def setVal (v w : Nat) (g : Grid) : Grid :=
  g.map (List.map (fun x => if x = v then w else x))

/-- `relabel` (source lines 18-45): the twenty-one masked assignments applied
in source order, first `img[img == 19] = 255`, last `img[img == 255] = 0`. -/
def relabel (g : Grid) : Grid :=
  setVal 255 0 (setVal 0 7 (setVal 1 8 (setVal 2 11 (setVal 3 12
    (setVal 4 13 (setVal 5 17 (setVal 6 19 (setVal 7 20 (setVal 8 21
      (setVal 9 22 (setVal 10 23 (setVal 11 24 (setVal 12 25 (setVal 13 26
        (setVal 14 27 (setVal 15 28 (setVal 16 31 (setVal 17 32
          (setVal 18 33 (setVal 19 255 g))))))))))))))))))))

/-- The call `relabel(img)` as a state transformer: numpy's masked
assignments mutate `img` in place and the function returns the same buffer,
so the returned array and the post-call contents of the caller's argument
buffer are both the fully substituted array. -/
def relabelCall (g : Grid) : Grid × Grid :=
  (relabel g, relabel g)

/-- The remap table documented in the spec (0→7, 1→8, …, 19→255, 255→0),
applied simultaneously to every cell.  This follows the spec's words, for
comparison with `relabel`, which is translated from the source. -/
def specTable (x : Nat) : Nat :=
  if x = 0 then 7 else if x = 1 then 8 else if x = 2 then 11
  else if x = 3 then 12 else if x = 4 then 13 else if x = 5 then 17
  else if x = 6 then 19 else if x = 7 then 20 else if x = 8 then 21
  else if x = 9 then 22 else if x = 10 then 23 else if x = 11 then 24
  else if x = 12 then 25 else if x = 13 then 26 else if x = 14 then 27
  else if x = 15 then 28 else if x = 16 then 31 else if x = 17 then 32
  else if x = 18 then 33 else if x = 19 then 255 else if x = 255 then 0
  else x

/-- Simultaneous (snapshot-read, fresh-write) application of the documented
table, the behaviour the spec requires of `relabel`. -/
def specRelabel (g : Grid) : Grid :=
  g.map (List.map specTable)

/-- A 1×21 grid holding every domain value exactly once. -/
def fullDomainGrid : Grid :=
  [[0, 1, 2, 3, 4, 5, 6, 7, 8, 9, 10, 11, 12, 13, 14, 15, 16, 17, 18, 19, 255]]

example : relabel fullDomainGrid =
    [[7, 8, 11, 12, 13, 17, 19, 20, 21, 22, 23, 24, 25, 26, 27, 28, 31, 32, 33, 0, 0]] := by
  decide

example : specRelabel fullDomainGrid =
    [[7, 8, 11, 12, 13, 17, 19, 20, 21, 22, 23, 24, 25, 26, 27, 28, 31, 32, 33, 255, 0]] := by
  decide

/-! ### Python string primitives used by `evaluate` and `load_dataset` -/

/-- Python `s.split(sep)` on a single separator character: splits at every
occurrence, keeping empty pieces (`"a//b".split('/') == ["a", "", "b"]`). -/
def pySplitChar (sep : Char) : List Char → List Char
    → List (List Char)
  | [], acc => [acc.reverse]
  | c :: cs, acc =>
    if c = sep then acc.reverse :: pySplitChar sep cs []
    else pySplitChar sep cs (c :: acc)

/-- Python `lst[-1]` on the (always non-empty) result of `split`. -/
def lastD (dflt : List Char) (l : List (List Char)) : List Char :=
  l.getLastD dflt

/-- Python `s.replace(old, new)` for a non-empty pattern: scans left to
right, replacing each non-overlapping occurrence.  `fuel` only forces
structural recursion; the whole string is processed whenever
`s.length ≤ fuel`, which `pyReplace` arranges. -/
def pyReplaceGo (pat rep : List Char) : Nat → List Char → List Char
  | _, [] => []
  | 0, s => s
  | fuel + 1, c :: cs =>
    if pat.isPrefixOf (c :: cs) then
      rep ++ pyReplaceGo pat rep fuel (cs.drop (pat.length - 1))
    else
      c :: pyReplaceGo pat rep fuel cs

/-- Python `s.replace(old, new)`; an empty pattern inserts `new` before every
character and at the end (`"ab".replace("", "X") == "XaXbX"`). -/
def pyReplace (pat rep s : List Char) : List Char :=
  match pat with
  | [] => rep ++ s.foldr (fun c acc => c :: (rep ++ acc)) []
  | _ :: _ => pyReplaceGo pat rep s.length s

/-- Output-path construction from `evaluate` (source lines 92-94):
`name = imgName.split('/')[-1]`, `img_extn = imgName.split('.')[-1]`,
`name = '…'.format(args.savedir, name.replace(img_extn, 'png'))`. -/
def outputName (savedir imgName : String) : String :=
  let name := lastD [] (pySplitChar '/' imgName.data [])
  let img_extn := lastD [] (pySplitChar '.' imgName.data [])
  savedir ++ "/" ++ String.mk (pyReplace img_extn ['p', 'n', 'g'] name)

example : outputName "results" "frames/city_000001.jpg" = "results/city_000001.png" := by
  decide

example : outputName "out" "d/jpg.jpg" = "out/png.png" := by
  decide

/-! ### `load_dataset` (source lines 98-125) -/

/-- How a `load_dataset` run can abort.  `config` is a call to
`print_error_message`; modelled from the spec: `print_error_message` lives in
`utilities/print_utils`, which is not among the provided sources — per the
spec a configuration error is "reported as a diagnostic and the run aborts",
so it is modelled as carrying its diagnostic message and short-circuiting.
`nameError` and `indexError` are the corresponding Python exceptions. -/
inductive Err where
  | config : String → Err
  | nameError : Err
  | indexError : Err
deriving DecidableEq, Repr

/-- The filesystem as `load_dataset` observes it: `glob` returns matches for
a pattern in the filesystem's enumeration order (Python's `glob.glob` applies
no sorting), `isfile` is `os.path.isfile`, and `readLines` yields the lines
of a text file. -/
structure FS where
  glob : String → List String
  isfile : String → Bool
  readLines : String → List String

/-- The fields of `args` that `load_dataset` reads. -/
structure Args where
  dataset : String
  data_path : String
  split : String

/-- `os.path.join` for the path fragments used here (no absolute or empty
later components occur). -/
def osJoin (a b : String) : String :=
  if a = "" then b
  else if a.data.getLast? = some '/' then a ++ b
  else a ++ "/" ++ b

/-- The glob pattern built in the `city` branch (line 101):
`os.path.join(args.data_path, "leftImg8bit", args.split, "*", "*.png")`. -/
def cityPattern (a : Args) : String :=
  osJoin a.data_path ("leftImg8bit/" ++ a.split ++ "/*/*.png")

/-- The manifest path built in the `pascal` branch (line 108):
`os.path.join(args.data_path, 'VOC2012', 'list', '{}.txt'.format(args.split))`. -/
def manifestFile (a : Args) : String :=
  osJoin a.data_path ("VOC2012/list/" ++ a.split ++ ".txt")

/-- The resolved image location for one manifest token (line 114):
`'{}/{}/{}'.format(args.data_path, 'VOC2012', line.split()[0])`. -/
def imgLoc (a : Args) (tok : String) : String :=
  a.data_path ++ "/VOC2012/" ++ tok

/-- Python `line.split()[0]`: first whitespace-delimited token, `none` when
the line is empty or all whitespace (in which case `[0]` raises IndexError). -/
def firstToken (s : String) : Option String :=
  let t := (s.data.dropWhile Char.isWhitespace).takeWhile (fun c => !c.isWhitespace)
  if t.isEmpty then none else some (String.mk t)

/-- The manifest loop of the `pascal` branch (lines 111-117): resolve each
line to an absolute path, aborting via `print_error_message` at the first
listed image that is not a file. -/
def resolveLines (fs : FS) (a : Args) : List String → Except Err (List String)
  | [] => .ok []
  | line :: rest =>
    match firstToken line with
    | none => .error .indexError
    | some tok =>
      let loc := imgLoc a tok
      if fs.isfile loc then
        match resolveLines fs a rest with
        | .ok r => .ok (loc :: r)
        | .error e => .error e
      else
        .error (.config (loc ++ " image file does not exist"))

/-- The `if/elif/else` dispatch of `load_dataset` (lines 100-119): yields the
enumerated `image_list` together with the value of the local variable
`image_path`, which is only assigned in the `city` branch. -/
def enumerateImages (fs : FS) (a : Args) :
    Except Err (List String × Option String) :=
  if a.dataset = "city" then
    let image_path := cityPattern a
    .ok (fs.glob image_path, some image_path)
  else if a.dataset = "pascal" then
    let data_file := manifestFile a
    if fs.isfile data_file then
      match resolveLines fs a (fs.readLines data_file) with
      | .ok l => .ok (l, none)
      | .error e => .error e
    else
      .error (.config (data_file ++ " file does not exist"))
  else
    .error (.config (a.dataset ++ " dataset not yet supported"))

/-- `load_dataset` (lines 98-125): enumerate, then `if len(image_list) == 0`
report `'No files in directory: {}'.format(image_path)` — in the `pascal`
branch `image_path` was never assigned, so that `format` call raises
`NameError` — and finally truncate with `image_list = image_list[:5]`. -/
def load_dataset (fs : FS) (a : Args) : Except Err (List String) :=
  match enumerateImages fs a with
  | .error e => .error e
  | .ok (image_list, image_path) =>
    if image_list.length = 0 then
      match image_path with
      | some p => .error (.config ("No files in directory: " ++ p))
      | none => .error .nameError
    else
      .ok (image_list.take 5)

/-! ### Nearest-neighbour resize (`evaluate`, lines 83-85) -/

/-- Cell lookup in a label grid (row `y`, column `x`). -/
def gridGet (g : Grid) (y x : Nat) : Nat :=
  (g.getD y []).getD x 0

/-- Modelled from the spec: the image library (PIL) performing
`img_out.resize((w, h), Image.NEAREST)` is an external collaborator whose
code is not among the sources.  Per the spec, nearest-neighbour resize gives
every output pixel the value of one (the nearest) source pixel and "label
values must never be interpolated/blended", so output cell `(x, y)` of a
`dstW × dstH` result copies source cell `(x·srcW/dstW, y·srcH/dstH)`. -/
def resizeNN (srcW srcH dstW dstH : Nat) (g : Grid) : Grid :=
  (List.range dstH).map (fun y =>
    (List.range dstW).map (fun x =>
      gridGet g (y * srcH / dstH) (x * srcW / dstW)))

/-- All cell values of a grid, row-major. -/
def gridValues (g : Grid) : List Nat :=
  g.flatten

example : resizeNN 2 1 1 1 [[0, 1]] = [[0]] := by decide

example : resizeNN 1 1 2 1 [[0]] = [[0, 0]] := by decide

/-! ### `_freeze`, `_count_freeze`, `freeze_base` (source lines 212-237) -/

/-- A `torch.nn.Module` as `_freeze` and `_count_freeze` observe it: the
`requires_grad` flags of the parameters registered directly on the module,
and its direct children (`named_children`). -/
inductive NNModule where
  | mk : List Bool → List NNModule → NNModule

/-- The `requires_grad` flags of the parameters registered directly on `m`. -/
def NNModule.own : NNModule → List Bool
  | .mk ps _ => ps

/-- The direct children of `m` (`m.named_children()`). -/
def NNModule.children : NNModule → List NNModule
  | .mk _ cs => cs

mutual

/-- `for param in m.parameters(): param.requires_grad = b`: sets the flag of
every parameter in `m`'s whole subtree, `m`'s own included (PyTorch's
`parameters()` recurses by default). -/
def setAllParams (b : Bool) : NNModule → NNModule
  | .mk ps cs => .mk (ps.map (fun _ => b)) (setAllParamsList b cs)

/-- `setAllParams` over a list of children. -/
def setAllParamsList (b : Bool) : List NNModule → List NNModule
  | [] => []
  | c :: cs => setAllParams b c :: setAllParamsList b cs

end

mutual

/-- All `requires_grad` flags in `m`'s subtree (`m.parameters()`): own
parameters first, then each child subtree in order. -/
def allParams : NNModule → List Bool
  | .mk ps cs => ps ++ allParamsList cs

/-- `allParams` concatenated over a list of children. -/
def allParamsList : List NNModule → List Bool
  | [] => []
  | c :: cs => allParams c ++ allParamsList cs

end

/-- The flags of every parameter strictly below `m`: everything in the
subtrees of `m`'s direct children. -/
def descendantParams (m : NNModule) : List Bool :=
  allParamsList m.children

mutual

/-- Nesting depth of a module tree (used only as recursion fuel). -/
def ndepth : NNModule → Nat
  | .mk _ cs => ndepthList cs + 1

/-- Greatest nesting depth over a list of children. -/
def ndepthList : List NNModule → Nat
  | [] => 0
  | c :: cs => max (ndepth c) (ndepthList cs)

end

/-- The body of `_freeze(model, freeze)` (lines 212-216): for each direct
child (`model.named_children()`), set every parameter of the child's subtree
to `not freeze`, then recurse into the (already updated) child.  Parameters
directly on `model` itself are never visited.  `fuel` only forces structural
recursion; `_freeze` passes the tree's depth, so the `0` case is never
reached. -/
def _freezeGo : Nat → NNModule → Bool → NNModule
  | 0, m, _ => m
  | fuel + 1, m, freeze =>
    .mk m.own (m.children.map (fun child => _freezeGo fuel (setAllParams (!freeze) child) freeze))

/-- `_freeze(model, freeze)` (lines 212-216). -/
def _freeze (m : NNModule) (freeze : Bool) : NNModule :=
  _freezeGo (ndepth m) m freeze

mutual

/-- `_count_freeze(model)` (lines 218-229): starting from counters `(0, 0)`,
for each direct child tally the flags of the child's subtree parameters; the
recursive call `_count_freeze(child)` is made but its result is discarded.
Returns `(count_requires_grad, count_not_requires_grad)`. -/
def _count_freeze : NNModule → Nat × Nat
  | .mk _ cs => countLoop cs (0, 0)

/-- The `for name, child in model.named_children()` loop of `_count_freeze`. -/
def countLoop : List NNModule → Nat × Nat → Nat × Nat
  | [], acc => acc
  | c :: cs, acc =>
    let acc2 := (allParams c).foldl
      (fun p flag => if flag = true then (p.1 + 1, p.2) else (p.1, p.2 + 1)) acc
    let _ := _count_freeze c
    countLoop cs acc2

end

/-- The segmentation model as `freeze_base` observes it: the `base_net`
attribute, the model's other submodules and its own direct parameters. -/
structure SegModel where
  base_net : NNModule
  others : List NNModule
  ownParams : List Bool

/-- `freeze_base(model)` (lines 231-233): `_freeze(model.base_net, freeze=True)`
(the subsequent `print` only reads counts). -/
def freeze_base (m : SegModel) : SegModel :=
  { m with base_net := _freeze m.base_net true }

example : allParams (_freeze (.mk [true] [.mk [true] [.mk [true] []]]) true) =
    [true, false, false] := by decide

example : _count_freeze (.mk [true] [.mk [true] [.mk [false] []]]) = (1, 1) := by decide

/-! ## Claims -/

/-- **C1** (code_bug evaluation).  On a grid holding every domain value
exactly once, `relabel` does *not* produce the documented codomain values:
the final rule `img[img == 255] = 0` overwrites the cells that the first
rule `img[img == 19] = 255` has just written, so the cell that held train ID
19 ends at 0 instead of the documented 255.  The simultaneous application of
the documented table (`specRelabel`) gives the documented row. -/
theorem C1_relabel_overwrites_19 :
    relabel fullDomainGrid =
      [[7, 8, 11, 12, 13, 17, 19, 20, 21, 22, 23, 24, 25, 26, 27, 28, 31, 32, 33, 0, 0]] ∧
    specRelabel fullDomainGrid =
      [[7, 8, 11, 12, 13, 17, 19, 20, 21, 22, 23, 24, 25, 26, 27, 28, 31, 32, 33, 255, 0]] ∧
    relabel fullDomainGrid ≠ specRelabel fullDomainGrid := by
  refine ⟨by decide, by decide, by decide⟩

/-- **C2** (code_bug evaluation).  `relabel` works by in-place masked
assignments on the caller's array: after the call `relabel(img)` on an array
holding `[[19]]`, the caller's buffer holds `[[0]]`, not its original
contents, and the returned array is that same buffer — the claim's required
snapshot-read / fresh-write behaviour does not hold. -/
theorem C2_relabel_mutates_argument :
    (relabelCall [[19]]).2 = [[0]] ∧
    (relabelCall [[19]]).2 ≠ [[19]] ∧
    (relabelCall [[19]]).1 = (relabelCall [[19]]).2 := by
  refine ⟨by decide, by decide, by decide⟩

/-- Filesystem fixture: seven images in glob order, nothing else. -/
def fsSeven : FS where
  glob := fun _ => ["a", "b", "c", "d", "e", "f", "g"]
  isfile := fun _ => false
  readLines := fun _ => []

/-- `args` fixture for the `city` dataset. -/
def argsCity : Args :=
  { dataset := "city", data_path := "/data", split := "val" }

/-- **C4** (confirmed).  Whatever `load_dataset` enumerates, a successful
return is `image_list[:5]`: the first five enumerated entries, hence at most
five elements, regardless of how many images exist. -/
theorem C4_load_dataset_truncates (fs : FS) (a : Args) (full : List String)
    (ip : Option String) (l : List String)
    (he : enumerateImages fs a = .ok (full, ip))
    (hl : load_dataset fs a = .ok l) :
    l = full.take 5 ∧ l.length ≤ 5 := by
  unfold load_dataset at hl
  rw [he] at hl
  by_cases h0 : full.length = 0
  · cases ip <;> simp [h0] at hl
  · simp only [h0, if_false] at hl
    have hl5 : l = full.take 5 := by
      cases hl
      rfl
    refine ⟨hl5, ?_⟩
    rw [hl5, List.length_take]
    omega

/-- **C4 witness**: with seven globbed images, `load_dataset` returns the
first five. -/
theorem C4_witness :
    (["a", "b", "c", "d", "e"] : List String) =
      (["a", "b", "c", "d", "e", "f", "g"] : List String).take 5 ∧
    (["a", "b", "c", "d", "e"] : List String).length ≤ 5 :=
  C4_load_dataset_truncates fsSeven argsCity ["a", "b", "c", "d", "e", "f", "g"]
    (some (cityPattern argsCity)) ["a", "b", "c", "d", "e"] rfl rfl

/-- Filesystem fixture: the glob enumerates `["b", "a"]` (filesystem order). -/
def fsBA : FS where
  glob := fun _ => ["b", "a"]
  isfile := fun _ => false
  readLines := fun _ => []

/-- Filesystem fixture: same two files, enumerated `["a", "b"]`. -/
def fsAB : FS where
  glob := fun _ => ["a", "b"]
  isfile := fun _ => false
  readLines := fun _ => []

/-- **C3** (counterexample).  The directory-scan variant does *not* return a
sorted list and *does* depend on filesystem enumeration order: over the same
two files, glob order `["b", "a"]` is returned as-is (unsorted), while glob
order `["a", "b"]` yields a different output. -/
theorem C3_counterexample :
    load_dataset fsBA argsCity = .ok ["b", "a"] ∧
    load_dataset fsAB argsCity = .ok ["a", "b"] ∧
    ¬ List.Pairwise (fun s t : String => s ≤ t) ["b", "a"] := by
  refine ⟨rfl, rfl, ?_⟩
  intro h
  have hba := List.rel_of_pairwise_cons h (List.mem_singleton.mpr rfl)
  rw [String.le_iff_toList_le] at hba
  exact absurd hba (by decide)

/-- **C3** (amended).  `load_dataset` is a pure function of the filesystem's
glob enumeration: for the `city` variant the returned list is exactly the
first five globbed paths in the filesystem's enumeration order — identical
listings give identical outputs, but no sorting is applied. -/
theorem C3_city_order_is_glob_order (fs : FS) (a : Args)
    (hd : a.dataset = "city") (hne : fs.glob (cityPattern a) ≠ []) :
    load_dataset fs a = .ok ((fs.glob (cityPattern a)).take 5) := by
  unfold load_dataset enumerateImages
  rw [hd]
  have h0 : ¬ (fs.glob (cityPattern a)).length = 0 := by
    simpa [List.length_eq_zero] using hne
  simp [h0]

/-- **C3 witness**: the amended statement at the `["b", "a"]` fixture. -/
theorem C3_witness :
    load_dataset fsBA argsCity = .ok ((fsBA.glob (cityPattern argsCity)).take 5) :=
  C3_city_order_is_glob_order fsBA argsCity rfl (by decide)

/-- `True` exactly on aborting results (any raised error). -/
def isAbort : Except Err (List String) → Bool
  | .error _ => true
  | .ok _ => false

/-- `True` exactly on results aborting through `print_error_message`. -/
def isConfigAbort : Except Err (List String) → Bool
  | .error (.config _) => true
  | _ => false

/-- `args` fixture for the `pascal` dataset. -/
def argsPascal : Args :=
  { dataset := "pascal", data_path := "/data", split := "val" }

/-- Filesystem fixture: every path is a file, the manifest has no lines. -/
def fsManifestEmpty : FS where
  glob := fun _ => []
  isfile := fun _ => true
  readLines := fun _ => []

/-- **C7** (counterexample).  In the `pascal` variant an existing but empty
manifest enumerates zero images, and `load_dataset` then aborts with a
`NameError` — the diagnostic `'No files in directory: {}'.format(image_path)`
reads the local `image_path`, which is only ever assigned in the `city`
branch — not with the configuration error the claim requires. -/
theorem C7_counterexample :
    enumerateImages fsManifestEmpty argsPascal = .ok ([], none) ∧
    load_dataset fsManifestEmpty argsPascal = .error .nameError ∧
    isConfigAbort (load_dataset fsManifestEmpty argsPascal) = false :=
  ⟨rfl, rfl, rfl⟩

/-- **C7** (amended).  Zero enumerated images never yields a silent empty
list: `load_dataset` always aborts, and in the `city` variant it aborts with
the configuration error naming the glob pattern; the `pascal` variant aborts
with a `NameError` instead. -/
theorem C7_zero_images_abort (fs : FS) (a : Args) (full : List String)
    (ip : Option String)
    (he : enumerateImages fs a = .ok (full, ip)) (h0 : full = []) :
    isAbort (load_dataset fs a) = true ∧
    (a.dataset = "city" →
      load_dataset fs a = .error (.config ("No files in directory: " ++ cityPattern a))) := by
  subst h0
  constructor
  · unfold load_dataset
    rw [he]
    cases ip <;> simp [isAbort]
  · intro hd
    have hcity : enumerateImages fs a =
        .ok (fs.glob (cityPattern a), some (cityPattern a)) := by
      unfold enumerateImages
      rw [hd]
      simp [cityPattern]
    rw [hcity] at he
    simp only [Except.ok.injEq, Prod.mk.injEq] at he
    unfold load_dataset
    rw [hcity, he.1]
    simp

/-- Filesystem fixture: glob finds nothing, no files exist. -/
def fsEmpty : FS where
  glob := fun _ => []
  isfile := fun _ => false
  readLines := fun _ => []

/-- **C7 witness**: with an empty glob in the `city` variant, the run aborts
with the configuration error naming the pattern. -/
theorem C7_witness :
    isAbort (load_dataset fsEmpty argsCity) = true ∧
    load_dataset fsEmpty argsCity =
      .error (.config ("No files in directory: " ++ cityPattern argsCity)) :=
  ⟨(C7_zero_images_abort fsEmpty argsCity [] (some (cityPattern argsCity)) rfl rfl).1,
   (C7_zero_images_abort fsEmpty argsCity [] (some (cityPattern argsCity)) rfl rfl).2 rfl⟩

/-- If every line before `line` resolves to an existing image but `line`'s
token resolves to a missing one, the manifest loop aborts with the
configuration error naming that resolved path. -/
theorem resolveLines_first_missing (fs : FS) (a : Args) (line t : String)
    (rest : List String) :
    ∀ pre : List String,
      (∀ l ∈ pre, ∃ tk, firstToken l = some tk ∧ fs.isfile (imgLoc a tk) = true) →
      firstToken line = some t → fs.isfile (imgLoc a t) = false →
      resolveLines fs a (pre ++ line :: rest) =
        .error (.config (imgLoc a t ++ " image file does not exist"))
  | [], _, ht, hmiss => by
    simp [resolveLines, ht, hmiss]
  | l :: pre, hpre, ht, hmiss => by
    obtain ⟨tk, htk, hfile⟩ := hpre l (List.mem_cons_self l pre)
    have ih := resolveLines_first_missing fs a line t rest pre
      (fun x hx => hpre x (List.mem_cons_of_mem l hx)) ht hmiss
    simp [resolveLines, htk, hfile, ih]

/-- **C8** (confirmed).  In the `pascal` variant: a missing manifest aborts
with a configuration error naming the manifest path; an existing manifest
whose first unresolvable line is `line` (all earlier lines resolve to
existing images) aborts with a configuration error naming the missing
resolved image path. -/
theorem C8_manifest_errors (fs : FS) (a : Args) (pre rest : List String)
    (line t : String) (hd : a.dataset = "pascal") :
    (fs.isfile (manifestFile a) = false →
      load_dataset fs a = .error (.config (manifestFile a ++ " file does not exist"))) ∧
    (fs.isfile (manifestFile a) = true →
      fs.readLines (manifestFile a) = pre ++ line :: rest →
      (∀ l ∈ pre, ∃ tk, firstToken l = some tk ∧ fs.isfile (imgLoc a tk) = true) →
      firstToken line = some t →
      fs.isfile (imgLoc a t) = false →
      load_dataset fs a = .error (.config (imgLoc a t ++ " image file does not exist"))) := by
  have hnc : ("pascal" : String) ≠ "city" := by decide
  constructor
  · intro hman
    unfold load_dataset enumerateImages
    rw [hd]
    simp [hnc, hman]
  · intro hman hlines hpre ht hmiss
    have hres := resolveLines_first_missing fs a line t rest pre hpre ht hmiss
    unfold load_dataset enumerateImages
    rw [hd]
    simp [hnc, hman, hlines, hres]

/-- Filesystem fixture: only the pascal manifest exists; it lists one image
that is not on disk. -/
def fsManifestOnly : FS where
  glob := fun _ => []
  isfile := fun p => p == "/data/VOC2012/list/val.txt"
  readLines := fun _ => ["img1.jpg"]

/-- **C8 witness**: the manifest lists `img1.jpg`, the resolved path
`/data/VOC2012/img1.jpg` does not exist, and the run aborts with the
configuration error naming exactly that path. -/
theorem C8_witness :
    load_dataset fsManifestOnly argsPascal =
      .error (.config ("/data/VOC2012/img1.jpg" ++ " image file does not exist")) :=
  (C8_manifest_errors fsManifestOnly argsPascal [] [] "img1.jpg" "img1.jpg" rfl).2
    rfl rfl (by simp) rfl rfl

/-- **C5** (counterexample).  `str.replace` substitutes every occurrence of
the extension substring, not only the trailing extension: for input
`d/jpg.jpg` the code produces `out/png.png`, altering the stem `jpg` as
well, where the claim requires `out/jpg.png`. -/
theorem C5_counterexample :
    outputName "out" "d/jpg.jpg" = "out/png.png" ∧
    "out/png.png" ≠ "out/jpg.png" :=
  ⟨by decide, by decide⟩

/-- If no occurrence of the (non-empty) pattern starts inside `stem`,
replacing in `stem ++ pat` rewrites exactly the trailing occurrence. -/
theorem pyReplaceGo_trailing (pat rep : List Char) (hne : pat ≠ []) :
    ∀ (stem : List Char) (fuel : Nat), (stem ++ pat).length ≤ fuel →
      (∀ i < stem.length, pat.isPrefixOf ((stem ++ pat).drop i) = false) →
      pyReplaceGo pat rep fuel (stem ++ pat) = stem ++ rep
  | [], fuel, hfuel, _ => by
    obtain ⟨p, ps, rfl⟩ : ∃ p ps, pat = p :: ps := by
      cases pat with
      | nil => exact absurd rfl hne
      | cons p ps => exact ⟨p, ps, rfl⟩
    obtain ⟨f, rfl⟩ : ∃ f, fuel = f + 1 := by
      cases fuel with
      | zero => simp at hfuel
      | succ f => exact ⟨f, rfl⟩
    have hpre : (p :: ps).isPrefixOf (p :: ps) = true := by
      simp [List.isPrefixOf_iff_prefix]
    simp [pyReplaceGo, hpre, List.drop_length]
  | c :: stem, fuel, hfuel, hno => by
    obtain ⟨f, rfl⟩ : ∃ f, fuel = f + 1 := by
      cases fuel with
      | zero => simp at hfuel
      | succ f => exact ⟨f, rfl⟩
    have h0 : pat.isPrefixOf (c :: (stem ++ pat)) = false := by
      have := hno 0 (Nat.succ_pos _)
      simpa using this
    have ih := pyReplaceGo_trailing pat rep hne stem f
      (by simpa using Nat.le_of_succ_le_succ hfuel)
      (fun i hi => by
        have := hno (i + 1) (Nat.succ_lt_succ hi)
        simpa using this)
    cases pat with
    | nil => exact absurd rfl hne
    | cons p ps =>
      show pyReplaceGo (p :: ps) rep (f + 1) ((c :: stem) ++ (p :: ps)) = (c :: stem) ++ rep
      rw [List.cons_append]
      simp only [pyReplaceGo]
      rw [h0, if_neg Bool.false_ne_true, ih]
      rfl

/-- **C5** (amended).  Whenever the extension substring occurs in the base
filename only as its trailing suffix (no occurrence starts earlier), the
output path is the configured directory, a slash, and the base filename with
that trailing extension replaced by `png`; in general Python's `str.replace`
rewrites every occurrence of the extension substring, not just the final
one. -/
theorem C5_extension_replaced (savedir imgName : String) (stem ext : List Char)
    (hbase : lastD [] (pySplitChar '/' imgName.data []) = stem ++ ext)
    (hext : lastD [] (pySplitChar '.' imgName.data []) = ext)
    (hne : ext ≠ [])
    (hno : ∀ i < stem.length, ext.isPrefixOf ((stem ++ ext).drop i) = false) :
    outputName savedir imgName =
      savedir ++ "/" ++ String.mk (stem ++ ['p', 'n', 'g']) := by
  simp only [outputName]
  rw [hbase, hext]
  cases ext with
  | nil => exact absurd rfl hne
  | cons e es =>
    simp only [pyReplace]
    rw [pyReplaceGo_trailing (e :: es) ['p', 'n', 'g'] (by simp) stem
      (stem ++ e :: es).length le_rfl hno]

/-- **C5 witness**: for `frames/city_01.jpg` under `results`, the extension
occurs only at the end, and the output is `results/city_01.png`. -/
theorem C5_witness :
    outputName "results" "frames/city_01.jpg" =
      "results" ++ "/" ++ String.mk ("city_01.".data ++ ['p', 'n', 'g']) :=
  C5_extension_replaced "results" "frames/city_01.jpg" "city_01.".data "jpg".data
    (by decide) (by decide) (by decide) (by decide)

/-- **C6** (counterexample).  Nearest-neighbour down-then-up resizing does
not preserve the set of distinct label values: the 2×1 map `[[0, 1]]` resized
to the 1×1 model size and back to 2×1 becomes `[[0, 0]]` — the value `1` is
lost. -/
theorem C6_counterexample :
    resizeNN 2 1 1 1 [[0, 1]] = [[0]] ∧
    resizeNN 1 1 2 1 (resizeNN 2 1 1 1 [[0, 1]]) = [[0, 0]] ∧
    1 ∈ gridValues [[0, 1]] ∧
    1 ∉ gridValues (resizeNN 1 1 2 1 (resizeNN 2 1 1 1 [[0, 1]])) := by
  refine ⟨by decide, by decide, by decide, by decide⟩

/-- **C6** (amended).  Half of the round-trip property does hold:
nearest-neighbour resizing introduces no new values — every cell of the
resized map copies some cell of the source, so the value set can only
shrink, never grow. -/
theorem C6_resizeNN_no_new_values (srcW srcH dstW dstH : Nat) (g : Grid)
    (hh : g.length = srcH) (hw : ∀ row ∈ g, row.length = srcW)
    (hW : 0 < srcW) (hH : 0 < srcH) :
    ∀ v ∈ gridValues (resizeNN srcW srcH dstW dstH g), v ∈ gridValues g := by
  intro v hv
  unfold gridValues resizeNN at hv
  rw [List.mem_flatten] at hv
  obtain ⟨row, hrow, hvrow⟩ := hv
  rw [List.mem_map] at hrow
  obtain ⟨y, hy, rfl⟩ := hrow
  rw [List.mem_range] at hy
  rw [List.mem_map] at hvrow
  obtain ⟨x, hx, rfl⟩ := hvrow
  rw [List.mem_range] at hx
  have hdH : 0 < dstH := Nat.pos_of_ne_zero (by rintro rfl; exact Nat.not_lt_zero y hy)
  have hdW : 0 < dstW := Nat.pos_of_ne_zero (by rintro rfl; exact Nat.not_lt_zero x hx)
  have hy' : y * srcH / dstH < srcH := by
    rw [Nat.div_lt_iff_lt_mul hdH]
    calc y * srcH < dstH * srcH := Nat.mul_lt_mul_of_lt_of_le hy le_rfl hH
    _ = srcH * dstH := Nat.mul_comm _ _
  have hyg : y * srcH / dstH < g.length := by rw [hh]; exact hy'
  have hrowd : g.getD (y * srcH / dstH) [] = g[y * srcH / dstH] :=
    List.getD_eq_getElem g [] hyg
  have hrowmem : g[y * srcH / dstH] ∈ g := List.getElem_mem hyg
  have hrl : (g[y * srcH / dstH]).length = srcW := hw _ hrowmem
  have hx' : x * srcW / dstW < srcW := by
    rw [Nat.div_lt_iff_lt_mul hdW]
    calc x * srcW < dstW * srcW := Nat.mul_lt_mul_of_lt_of_le hx le_rfl hW
    _ = srcW * dstW := Nat.mul_comm _ _
  have hxg : x * srcW / dstW < (g[y * srcH / dstH]).length := by rw [hrl]; exact hx'
  unfold gridGet
  rw [hrowd, List.getD_eq_getElem _ 0 hxg]
  unfold gridValues
  rw [List.mem_flatten]
  exact ⟨g[y * srcH / dstH], hrowmem, List.getElem_mem hxg⟩

/-- **C6 witness**: upscaling `[[4, 9]]` to width 3 yields `[[4, 4, 9]]`,
whose value `9` indeed occurs in the source. -/
theorem C6_witness :
    9 ∈ gridValues (resizeNN 2 1 3 1 [[4, 9]]) ∧ 9 ∈ gridValues ([[4, 9]] : Grid) :=
  ⟨by decide,
   C6_resizeNN_no_new_values 2 1 3 1 [[4, 9]] rfl (by decide) (by decide) (by decide)
     9 (by decide)⟩

mutual

/-- Setting every subtree flag twice is the same as setting it once. -/
theorem setAllParams_idem (b : Bool) : ∀ m,
    setAllParams b (setAllParams b m) = setAllParams b m
  | .mk ps cs => by
    simp [setAllParams, setAllParamsList_idem b cs, List.map_map]

/-- `setAllParams_idem` over a list of children. -/
theorem setAllParamsList_idem (b : Bool) : ∀ cs,
    setAllParamsList b (setAllParamsList b cs) = setAllParamsList b cs
  | [] => rfl
  | c :: cs => by
    simp [setAllParamsList, setAllParams_idem b c, setAllParamsList_idem b cs]

end

mutual

/-- After `setAllParams b`, every flag of the subtree is `b`. -/
theorem allParams_setAllParams (b : Bool) : ∀ m,
    allParams (setAllParams b m) = (allParams m).map (fun _ => b)
  | .mk ps cs => by
    simp [setAllParams, allParams, allParamsList_setAllParamsList b cs]

/-- `allParams_setAllParams` over a list of children. -/
theorem allParamsList_setAllParamsList (b : Bool) : ∀ cs,
    allParamsList (setAllParamsList b cs) = (allParamsList cs).map (fun _ => b)
  | [] => rfl
  | c :: cs => by
    simp [setAllParamsList, allParamsList, allParams_setAllParams b c,
      allParamsList_setAllParamsList b cs]

end

/-- `setAllParamsList` is `setAllParams` mapped over the children. -/
theorem setAllParamsList_eq_map (b : Bool) : ∀ cs,
    setAllParamsList b cs = cs.map (setAllParams b)
  | [] => rfl
  | c :: cs => by simp [setAllParamsList, setAllParamsList_eq_map b cs]

/-- A subtree whose flags were all just set is a fixed point of the `_freeze`
recursion: the recursive `_freeze(child)` call only re-writes values that the
enclosing iteration's `parameters()` loop has already written. -/
theorem freezeGo_fix (f : Bool) : ∀ (fuel : Nat) (m : NNModule),
    _freezeGo fuel (setAllParams (!f) m) f = setAllParams (!f) m := by
  intro fuel
  induction fuel with
  | zero => intro m; rfl
  | succ n ih =>
    intro m
    cases m with
    | mk ps cs =>
      simp only [setAllParams, _freezeGo, NNModule.own, NNModule.children]
      congr 1
      induction cs with
      | nil => rfl
      | cons c cs ihc =>
        simp only [setAllParamsList, List.map_cons, List.cons.injEq]
        refine ⟨?_, ihc⟩
        rw [setAllParams_idem]
        exact ih c

/-- Closed form of `_freeze`: own parameters untouched, every child subtree
entirely set to `not freeze`. -/
theorem _freeze_eq (m : NNModule) (f : Bool) :
    _freeze m f = .mk m.own (m.children.map (setAllParams (!f))) := by
  cases m with
  | mk ps cs =>
    show _freezeGo (ndepth (.mk ps cs)) (.mk ps cs) f = _
    simp only [ndepth, _freezeGo, NNModule.own, NNModule.children]
    congr 1
    exact List.map_congr_left (fun c _ => freezeGo_fix f (ndepthList cs) c)

/-- **C9** (counterexample).  When `base_net` has a parameter registered
directly on itself, `freeze_base` leaves it untouched: `_freeze` only visits
`named_children`, never the module's own parameters — so not every parameter
"under `model.base_net`" is set to `False`. -/
theorem C9_counterexample :
    allParams ((freeze_base ⟨.mk [true] [], [], []⟩).base_net) = [true] ∧
    ([true] : List Bool) ≠ [false] :=
  ⟨rfl, by decide⟩

/-- **C9** (amended).  After `_freeze(m, f)` every parameter of every
descendant module of `m` has `requires_grad = not f` while `m`'s own direct
parameters are untouched; consequently `freeze_base` sets `requires_grad` to
`False` on exactly the parameters of the descendants of `model.base_net` —
parameters registered directly on `base_net` itself, and every parameter
outside `base_net`, are untouched. -/
theorem C9_freeze_descendants (M : SegModel) (m : NNModule) (f : Bool) :
    descendantParams (_freeze m f) = (descendantParams m).map (fun _ => !f) ∧
    (_freeze m f).own = m.own ∧
    descendantParams ((freeze_base M).base_net) =
      (descendantParams M.base_net).map (fun _ => false) ∧
    ((freeze_base M).base_net).own = M.base_net.own ∧
    (freeze_base M).others = M.others ∧
    (freeze_base M).ownParams = M.ownParams := by
  have hdesc : ∀ (m' : NNModule) (f' : Bool),
      descendantParams (_freeze m' f') = (descendantParams m').map (fun _ => !f') := by
    intro m' f'
    rw [_freeze_eq]
    unfold descendantParams
    simp only [NNModule.children]
    rw [← setAllParamsList_eq_map, allParamsList_setAllParamsList]
  have hown : ∀ (m' : NNModule) (f' : Bool), (_freeze m' f').own = m'.own := by
    intro m' f'
    rw [_freeze_eq]
    rfl
  refine ⟨hdesc m f, hown m f, ?_, ?_, rfl, rfl⟩
  · show descendantParams (_freeze M.base_net true) = _
    rw [hdesc M.base_net true]
    rfl
  · show (_freeze M.base_net true).own = _
    rw [hown M.base_net true]

/-- The inner `for param in child.parameters()` tally of `_count_freeze`:
starting from `(a, b)`, it adds the number of `True` flags to the first
counter and the number of `False` flags to the second. -/
theorem countFold_eq : ∀ (flags : List Bool) (a b : Nat),
    flags.foldl
      (fun p flag => if flag = true then (p.1 + 1, p.2) else (p.1, p.2 + 1)) (a, b) =
      (a + flags.count true, b + flags.count false)
  | [], a, b => by simp
  | flag :: flags, a, b => by
    cases flag <;>
      simp [countFold_eq flags, List.count_cons] <;> omega

/-- The child loop of `_count_freeze` tallies exactly the flags of the
children's subtrees; the discarded recursive call contributes nothing. -/
theorem countLoop_eq : ∀ (cs : List NNModule) (a b : Nat),
    countLoop cs (a, b) =
      (a + (allParamsList cs).count true, b + (allParamsList cs).count false)
  | [], a, b => by simp [countLoop, allParamsList]
  | c :: cs, a, b => by
    simp only [countLoop, allParamsList]
    rw [countFold_eq, countLoop_eq cs]
    simp only [List.count_append, Prod.mk.injEq]
    omega

/-- Every list of flags has `count true + count false = length`. -/
theorem count_bool_length : ∀ l : List Bool, l.count true + l.count false = l.length
  | [] => rfl
  | b :: l => by
    have ih := count_bool_length l
    cases b <;> simp [List.count_cons] <;> omega

/-- **C10** (confirmed).  `_count_freeze m` returns exactly the tallies of
the flags of the parameters in `m`'s direct children's subtrees — each such
parameter counted once, the recursive call's result discarded without
affecting the counts: the pair is `(count True, count False)` over the
descendant parameters, its sum is their number, and the parameters
registered directly on `m` are excluded (they account exactly for the
difference from `m`'s full parameter count). -/
theorem C10_count_freeze (m : NNModule) :
    (_count_freeze m).1 = (descendantParams m).count true ∧
    (_count_freeze m).2 = (descendantParams m).count false ∧
    (_count_freeze m).1 + (_count_freeze m).2 = (descendantParams m).length ∧
    (descendantParams m).length + m.own.length = (allParams m).length := by
  cases m with
  | mk ps cs =>
    have h : _count_freeze (.mk ps cs) = countLoop cs (0, 0) := rfl
    rw [h, countLoop_eq cs 0 0]
    have hd : descendantParams (.mk ps cs) = allParamsList cs := rfl
    rw [hd]
    refine ⟨by omega, by omega, ?_, ?_⟩
    · simp only []
      have := count_bool_length (allParamsList cs)
      omega
    · show (allParamsList cs).length + ps.length = (allParams (.mk ps cs)).length
      simp [allParams]
      omega
